import Mathlib

/-!
Verification of the upload/validation/dispatch core of `server.py`
(a Flask service exposing `POST /api/transcribe`).

The request handler is embedded as a pure function.  The external
transcription engine (`mlx_whisper.transcribe`) is a parameter
`engine : String → EngineOptions → Except String ρ`, where `ρ` is the
opaque result type owned by the engine; an `Except.error` models the
engine raising.  Wall-clock time `int(time.time())` is a parameter
`now : Nat`.  The two observable side effects, the file write performed
by `file.save(...)` and the engine invocation, are recorded in the
returned `HandlerOutcome`.  A Python exception escaping the handler
(such as the `IndexError` that `rsplit('.', 1)[1]` raises on a dotless
filename, or an exception raised by the engine under the `with lock:`
block) is modelled as `Except.error` in the `result` field: the handler
itself produces no HTTP response in that case.

The `threading.Lock` named `lock` and the `with lock:` block around the
engine call are modelled separately as a transition system over the
threads concurrently executing the handler (`SysState`, `Step`,
`Reachable` below).
-/

/-- `UPLOAD_FOLDER = 'uploads'` in `server.py`. -/
def UPLOAD_FOLDER : String := "uploads"

/-- `ALLOWED_EXTENSIONS = {'m4a','mp3','wav'}` in `server.py`. -/
def ALLOWED_EXTENSIONS : List String := ["m4a", "mp3", "wav"]

/-- `WHISPER_MODEL_NAME` in `server.py`. -/
def WHISPER_MODEL_NAME : String := "mlx-community/whisper-large-v3-turbo"

/-- The keyword arguments `server.py` passes to `mlx_whisper.transcribe`. -/
structure EngineOptions where
  path_or_hf_repo : String
  language : String
  fp16 : Bool
deriving DecidableEq, Repr

/-- The `file` part of a multipart request (`request.files['file']`).
Werkzeug gives parsed file parts a string `filename`; the byte content
is never inspected by the handler, so it is not modelled. -/
structure FilePart where
  filename : String
deriving DecidableEq, Repr

/-- An incoming request, reduced to the only field the handler reads:
`request.files['file']` when the `'file'` part is present. -/
structure Request where
  file : Option FilePart
deriving DecidableEq, Repr

/-- A JSON response body: either `jsonify({'error': msg})` or
`jsonify(result)` for an engine result `r : ρ` passed through opaquely. -/
inductive Body (ρ : Type) where
  | jsonError (msg : String)
  | jsonResult (r : ρ)
deriving DecidableEq, Repr

/-- An HTTP response produced by the handler: status code and JSON body. -/
structure Response (ρ : Type) where
  status : Nat
  body : Body ρ
deriving DecidableEq, Repr

/-- A Python exception escaping the handler: the `IndexError` from
`rsplit('.', 1)[1]`, or an exception raised by the engine call. -/
inductive PyExn where
  | indexError
  | engineError (msg : String)
deriving DecidableEq, Repr

deriving instance DecidableEq for Except

/-- Everything observable about one execution of the handler: the HTTP
response it returns (or the exception that escapes it), the path handed
to `file.save` if any, and whether the engine was invoked. -/
structure HandlerOutcome (ρ : Type) where
  result : Except PyExn (Response ρ)
  saved : Option String
  engineCalled : Bool
deriving DecidableEq, Repr

/-- Splits a character list at the first occurrence of `c`, returning
the parts before and after it, or `none` when `c` does not occur. -/
def breakAtFirst (c : Char) : List Char → Option (List Char × List Char)
  | [] => none
  | x :: xs =>
    if x = c then some ([], xs)
    else
      match breakAtFirst c xs with
      | none => none
      | some (a, b) => some (x :: a, b)

/-- Python `s.rsplit('.', 1)`: split at the last `'.'` giving a
two-element list, or the one-element list `[s]` when `s` has no `'.'`. -/
def rsplitDot1 (s : String) : List String :=
  match breakAtFirst '.' s.data.reverse with
  | none => [s]
  | some (aRev, bRev) => [⟨bRev.reverse⟩, ⟨aRev.reverse⟩]

/-- Python `s.lower()`, character by character (ASCII case mapping,
which is all the handler's comparisons against `ALLOWED_EXTENSIONS`
and its stored-filename construction depend on). -/
def pyLower (s : String) : String := ⟨s.data.map Char.toLower⟩

/-- Python `xs[1]` on a list: the second element, or an `IndexError`
when the list has fewer than two elements. -/
def pyIndex1 (xs : List String) : Except PyExn String :=
  match xs with
  | _ :: x :: _ => .ok x
  | _ => .error .indexError

/-- The body of `transcribe()` in `server.py`, line by line:

* `if 'file' not in request.files: return jsonify({'error': 'No file provided'}), 400`
* `file = request.files['file']`
* `if file.filename == '': return jsonify({'error': 'No file selected'}), 400`
* `if not file.filename: return jsonify({'error': 'Invalid filename'}), 400`
  (for a `str`, `not s` is true exactly when `s == ''`)
* `ext = file.filename.rsplit('.', 1)[1].lower()`
* `if ext and ext in ALLOWED_EXTENSIONS:` then
  `filename = str(int(time.time())) + '.' + ext`,
  `saved_filename = os.path.join(UPLOAD_FOLDER, filename)`,
  `file.save(saved_filename)`,
  `with lock: result = mlx_whisper.transcribe(saved_filename, ...)`,
  `return jsonify(result), 200`
* otherwise `return jsonify({'error': 'Invalid file format'}), 400`. -/
def transcribe {ρ : Type} (engine : String → EngineOptions → Except String ρ)
    (now : Nat) (req : Request) : HandlerOutcome ρ :=
  match req.file with
  | none => ⟨.ok ⟨400, .jsonError "No file provided"⟩, none, false⟩
  | some file =>
    if file.filename = "" then
      ⟨.ok ⟨400, .jsonError "No file selected"⟩, none, false⟩
    else if file.filename = "" then
      ⟨.ok ⟨400, .jsonError "Invalid filename"⟩, none, false⟩
    else
      match pyIndex1 (rsplitDot1 file.filename) with
      | .error e => ⟨.error e, none, false⟩
      | .ok extRaw =>
        let ext := pyLower extRaw
        if ext ≠ "" ∧ ext ∈ ALLOWED_EXTENSIONS then
          let filename := toString now ++ "." ++ ext
          let saved_filename := UPLOAD_FOLDER ++ "/" ++ filename
          match engine saved_filename ⟨WHISPER_MODEL_NAME, "ja", true⟩ with
          | .ok result => ⟨.ok ⟨200, .jsonResult result⟩, some saved_filename, true⟩
          | .error m => ⟨.error (.engineError m), some saved_filename, true⟩
        else
          ⟨.ok ⟨400, .jsonError "Invalid file format"⟩, none, false⟩

/-!
The concurrency model.  `server.py` creates one process-wide
`lock = threading.Lock()` and wraps the engine call as

    with lock:
        result = mlx_whisper.transcribe(saved_filename, ...)

Each request-handling thread is tracked by the phase of its handler
execution relative to that block: `start` (anywhere before the `with
lock:` line — validation and `file.save` run without the lock),
`inEngine` (the thread acquired the lock and the engine call is in
flight), `done` (the engine call returned and the `with` block released
the lock), `failed` (the engine call raised; the `with` statement still
released the lock on that exit path, and the exception propagates).

`Step` is the interleaving semantics: a thread at `start` may acquire
the lock only when no thread holds it (`threading.Lock.acquire` blocks
otherwise), and an `inEngine` thread may finish or fail, either way
releasing the lock.
-/

/-- The phase of one request-handling thread relative to the
`with lock:` block. -/
inductive Phase where
  | start
  | inEngine
  | done
  | failed
deriving DecidableEq, Repr

/-- Global state of the process: the phase of each of the `n`
request-handling threads, and which thread (if any) currently holds
`lock`. -/
structure SysState (n : Nat) where
  phase : Fin n → Phase
  lockHeldBy : Option (Fin n)

/-- Process start: no request has reached the `with lock:` line and the
freshly constructed `threading.Lock()` is unheld. -/
def initState (n : Nat) : SysState n := ⟨fun _ => .start, none⟩

/-- One scheduler step of the interleaved execution. -/
inductive Step {n : Nat} : SysState n → SysState n → Prop
  | acquire (s : SysState n) (t : Fin n) :
      s.phase t = .start → s.lockHeldBy = none →
      Step s ⟨Function.update s.phase t .inEngine, some t⟩
  | finish (s : SysState n) (t : Fin n) :
      s.phase t = .inEngine →
      Step s ⟨Function.update s.phase t .done, none⟩
  | fail (s : SysState n) (t : Fin n) :
      s.phase t = .inEngine →
      Step s ⟨Function.update s.phase t .failed, none⟩

/-- States reachable from process start by interleaved execution. -/
inductive Reachable {n : Nat} : SysState n → Prop
  | init : Reachable (initState n)
  | step {s s' : SysState n} : Reachable s → Step s s' → Reachable s'

/-- The lock discipline: a thread's engine call is in flight exactly
when that thread holds the lock. -/
def LockInv {n : Nat} (s : SysState n) : Prop :=
  ∀ t, s.phase t = .inEngine ↔ s.lockHeldBy = some t

/-- A concrete two-thread state in which thread 0 has acquired the lock
and its engine call is in flight. -/
def engineBusyState : SysState 2 :=
  ⟨Function.update (initState 2).phase 0 .inEngine, some 0⟩

/-- A concrete two-thread state in which thread 0's engine call has
raised (and the `with` statement released the lock) while thread 1 still
stands at the `with lock:` line. -/
def failedState : SysState 2 :=
  ⟨Function.update (Function.update (initState 2).phase 0 .inEngine) 0 .failed, none⟩

theorem lockInv_init (n : Nat) : LockInv (initState n) := by
  intro t
  simp [initState]

theorem lockInv_step {n : Nat} {s s' : SysState n}
    (hinv : LockInv s) (hstep : Step s s') : LockInv s' := by
  cases hstep with
  | acquire t ht hlock =>
    intro u
    by_cases hu : u = t
    · subst hu; simp [Function.update_same]
    · simp only [Function.update_noteq hu]
      constructor
      · intro h
        exact absurd (hlock ▸ (hinv u).mp h) (by simp)
      · intro h
        exact absurd (Option.some.inj h) (fun e => hu e.symm)
  | finish t ht =>
    intro u
    by_cases hu : u = t
    · subst hu; simp [Function.update_same]
    · simp only [Function.update_noteq hu]
      constructor
      · intro h
        have := ((hinv t).mp ht).symm.trans ((hinv u).mp h)
        exact absurd (Option.some.inj this) (fun e => hu e.symm)
      · intro h; simp at h
  | fail t ht =>
    intro u
    by_cases hu : u = t
    · subst hu; simp [Function.update_same]
    · simp only [Function.update_noteq hu]
      constructor
      · intro h
        have := ((hinv t).mp ht).symm.trans ((hinv u).mp h)
        exact absurd (Option.some.inj this) (fun e => hu e.symm)
      · intro h; simp at h

theorem lockInv_reachable {n : Nat} {s : SysState n}
    (h : Reachable s) : LockInv s := by
  induction h with
  | init => exact lockInv_init n
  | step _ hstep ih => exact lockInv_step ih hstep

/-- From any state in which the lock is free, a thread standing at the
`with lock:` line can acquire the lock and complete its engine call. -/
theorem complete_from_free {n : Nat} (s : SysState n) (t : Fin n)
    (hfree : s.lockHeldBy = none) (hstart : s.phase t = .start) :
    ∃ s', Relation.ReflTransGen Step s s' ∧ s'.phase t = .done := by
  refine ⟨⟨Function.update (Function.update s.phase t .inEngine) t .done, none⟩, ?_, ?_⟩
  · exact Relation.ReflTransGen.head (Step.acquire s t hstart hfree)
      (Relation.ReflTransGen.single
        (Step.finish _ t (by simp [Function.update_same])))
  · simp [Function.update_same]

/-!  Lemmas about the embedded `rsplit('.', 1)`. -/

theorem breakAtFirst_of_not_mem {c : Char} {l1 : List Char} (l2 : List Char)
    (h : c ∉ l1) : breakAtFirst c (l1 ++ c :: l2) = some (l1, l2) := by
  induction l1 with
  | nil => simp [breakAtFirst]
  | cons x xs ih =>
    have hx : ¬ x = c := fun e => h (by simp [e])
    have hxs : c ∉ xs := fun m => h (List.mem_cons_of_mem _ m)
    simp [breakAtFirst, hx, ih hxs]

theorem data_dot_append (pre ext : String) :
    (pre ++ "." ++ ext).data = pre.data ++ '.' :: ext.data := by
  simp [String.data_append]

theorem dot_append_ne_empty (pre ext : String) : pre ++ "." ++ ext ≠ "" := by
  intro hcontra
  have h := congrArg String.data hcontra
  rw [data_dot_append] at h
  simp at h

/-- Splitting at the last `'.'`: when `ext` contains no `'.'`, the
Python expression `(pre + "." + ext).rsplit('.', 1)` is `[pre, ext]`. -/
theorem rsplitDot1_append {ext : String} (pre : String) (h : '.' ∉ ext.data) :
    rsplitDot1 (pre ++ "." ++ ext) = [pre, ext] := by
  have hrev : (pre ++ "." ++ ext).data.reverse =
      ext.data.reverse ++ '.' :: pre.data.reverse := by
    rw [data_dot_append]
    simp
  have hnot : '.' ∉ ext.data.reverse := by
    simpa using h
  rw [rsplitDot1, hrev, breakAtFirst_of_not_mem _ hnot]
  simp [String.ext_iff]

/-- The shape of the handler on a request whose filename has the form
`pre ++ "." ++ ext` with `ext` dot-free (that is, `ext` is the substring
after the last `'.'`): the guards fall through to the extension check,
and everything downstream depends only on `pyLower ext`. -/
theorem transcribe_split {ρ : Type} (engine : String → EngineOptions → Except String ρ)
    (now : Nat) (pre ext : String) (h : '.' ∉ ext.data) :
    transcribe engine now ⟨some ⟨pre ++ "." ++ ext⟩⟩ =
      if pyLower ext ≠ "" ∧ pyLower ext ∈ ALLOWED_EXTENSIONS then
        match engine (UPLOAD_FOLDER ++ "/" ++ (toString now ++ "." ++ pyLower ext))
            ⟨WHISPER_MODEL_NAME, "ja", true⟩ with
        | .ok result =>
          ⟨.ok ⟨200, .jsonResult result⟩,
            some (UPLOAD_FOLDER ++ "/" ++ (toString now ++ "." ++ pyLower ext)), true⟩
        | .error m =>
          ⟨.error (.engineError m),
            some (UPLOAD_FOLDER ++ "/" ++ (toString now ++ "." ++ pyLower ext)), true⟩
      else ⟨.ok ⟨400, .jsonError "Invalid file format"⟩, none, false⟩ := by
  simp [transcribe, dot_append_ne_empty pre ext, rsplitDot1_append pre h, pyIndex1]

/-- An extension in the allowed set is non-empty (Python's
`if ext and ext in ALLOWED_EXTENSIONS` makes the truthiness test
redundant for members of the set). -/
theorem mem_allowed_ne_empty {e : String} (h : e ∈ ALLOWED_EXTENSIONS) : e ≠ "" := by
  intro he
  rw [he] at h
  simp [ALLOWED_EXTENSIONS] at h

/-- Claim C1: for any two concurrent requests, the transcription engine
is never invoked twice simultaneously — in every reachable state, any
two threads with an in-flight engine call coincide, so at most one
in-flight call to the engine exists at any time, system-wide. -/
theorem C1_engine_mutual_exclusion {n : Nat} {s : SysState n} (h : Reachable s)
    (t1 t2 : Fin n) (h1 : s.phase t1 = .inEngine) (h2 : s.phase t2 = .inEngine) :
    t1 = t2 := by
  have inv := lockInv_reachable h
  exact Option.some.inj (((inv t1).mp h1).symm.trans ((inv t2).mp h2))

theorem C1_engine_mutual_exclusion_witness :
    engineBusyState.phase 0 = Phase.inEngine ∧ (0 : Fin 2) = 0 :=
  ⟨by decide,
    C1_engine_mutual_exclusion
      (Reachable.step Reachable.init (Step.acquire (initState 2) 0 rfl rfl))
      0 0 (by decide) (by decide)⟩

/-- Claim C2: the exclusive slot is released on every exit path of the
wrapped engine call, including when the engine call raises — in every
reachable state, a thread whose engine call failed does not hold the
lock, and a further request standing at the `with lock:` line can still
acquire the slot and complete. -/
theorem C2_slot_released_after_failure {n : Nat} {s : SysState n} (h : Reachable s)
    (t1 t2 : Fin n) (hfail : s.phase t1 = .failed) (hstart : s.phase t2 = .start) :
    s.lockHeldBy ≠ some t1 ∧
      ∃ s', Relation.ReflTransGen Step s s' ∧ s'.phase t2 = .done := by
  have inv := lockInv_reachable h
  refine ⟨?_, ?_⟩
  · intro hcontra
    have h1 := (inv t1).mpr hcontra
    rw [hfail] at h1
    exact Phase.noConfusion h1
  · cases hcase : s.lockHeldBy with
    | none => exact complete_from_free s t2 hcase hstart
    | some t3 =>
      have h3 : s.phase t3 = .inEngine := (inv t3).mpr hcase
      have hne : t2 ≠ t3 := by
        intro e
        rw [e, h3] at hstart
        exact Phase.noConfusion hstart
      obtain ⟨s', hsteps, hdone⟩ :=
        complete_from_free ⟨Function.update s.phase t3 .done, none⟩ t2 rfl
          (by simpa [Function.update_noteq hne] using hstart)
      exact ⟨s', Relation.ReflTransGen.head (Step.finish s t3 h3) hsteps, hdone⟩

theorem C2_slot_released_after_failure_witness :
    failedState.lockHeldBy ≠ some 0 ∧
      ∃ s', Relation.ReflTransGen Step failedState s' ∧ s'.phase 1 = Phase.done :=
  C2_slot_released_after_failure
    (Reachable.step
      (Reachable.step Reachable.init (Step.acquire (initState 2) 0 rfl rfl))
      (Step.fail ⟨Function.update (initState 2).phase 0 .inEngine, some 0⟩ 0 (by decide)))
    0 1 (by decide) (by decide)

/-- Claim C3 concerns a request with a present file part whose declared
filename is non-empty but has no `'.'`-delimited extension.  The claim
says such a request gets HTTP 400 with `{"error": "Invalid filename"}`;
the code instead raises `IndexError` at `file.filename.rsplit('.', 1)[1]`
(the one-element split has no index 1), so the exception escapes the
handler and no 400 response is produced.  No file is persisted and the
engine is not invoked, as the claim says.  This theorem evaluates the
handler at such an input. -/
theorem C3_dotless_filename_raises_index_error :
    transcribe (fun _ _ => (.ok "r" : Except String String)) 1700000000
        ⟨some ⟨"audio"⟩⟩ =
      ⟨.error .indexError, none, false⟩ := by decide

/-- Claim C4: an upload whose filename's extension (the dot-free suffix
after the last `'.'`), lower-cased, is not in `{m4a, mp3, wav}` gets
HTTP 400 with `{"error": "Invalid file format"}`, no file is written and
the engine is not invoked. -/
theorem C4_disallowed_extension_rejected {ρ : Type}
    (engine : String → EngineOptions → Except String ρ) (now : Nat)
    (pre ext : String) (hdot : '.' ∉ ext.data)
    (hnot : pyLower ext ∉ ALLOWED_EXTENSIONS) :
    transcribe engine now ⟨some ⟨pre ++ "." ++ ext⟩⟩ =
      ⟨.ok ⟨400, .jsonError "Invalid file format"⟩, none, false⟩ := by
  rw [transcribe_split engine now pre ext hdot]
  simp [hnot]

theorem C4_disallowed_extension_rejected_witness :
    ('.' ∉ "txt".data ∧ pyLower "txt" ∉ ALLOWED_EXTENSIONS) ∧
      transcribe (fun _ _ => (.ok "r" : Except String String)) 5
          ⟨some ⟨"notes" ++ "." ++ "txt"⟩⟩ =
        ⟨.ok ⟨400, .jsonError "Invalid file format"⟩, none, false⟩ :=
  ⟨⟨by decide, by decide⟩,
    C4_disallowed_extension_rejected (fun _ _ => .ok "r") 5 "notes" "txt"
      (by decide) (by decide)⟩

/-- Claim C5: an accepted upload (extension lower-cases into
`{m4a, mp3, wav}`) is persisted under the upload directory as
`<integer-seconds-since-epoch>.<lower-cased extension>`. -/
theorem C5_accepted_upload_persisted {ρ : Type}
    (engine : String → EngineOptions → Except String ρ) (now : Nat)
    (pre ext : String) (hdot : '.' ∉ ext.data)
    (hmem : pyLower ext ∈ ALLOWED_EXTENSIONS) :
    (transcribe engine now ⟨some ⟨pre ++ "." ++ ext⟩⟩).saved =
      some (UPLOAD_FOLDER ++ "/" ++ (toString now ++ "." ++ pyLower ext)) := by
  rw [transcribe_split engine now pre ext hdot,
    if_pos ⟨mem_allowed_ne_empty hmem, hmem⟩]
  cases engine (UPLOAD_FOLDER ++ "/" ++ (toString now ++ "." ++ pyLower ext))
      ⟨WHISPER_MODEL_NAME, "ja", true⟩ <;> rfl

theorem C5_accepted_upload_persisted_witness :
    pyLower "WAV" ∈ ALLOWED_EXTENSIONS ∧
      (transcribe (fun _ _ => (.ok "r" : Except String String)) 1700000000
          ⟨some ⟨"clip" ++ "." ++ "WAV"⟩⟩).saved =
        some (UPLOAD_FOLDER ++ "/" ++ (toString 1700000000 ++ "." ++ pyLower "WAV")) :=
  ⟨by decide,
    C5_accepted_upload_persisted (fun _ _ => .ok "r") 1700000000 "clip" "WAV"
      (by decide) (by decide)⟩

/-- Claim C6: the validation checks short-circuit in order before any
storage or engine interaction — a request with no `file` part gets
`400 {"error": "No file provided"}` and a request whose file part has an
empty filename gets `400 {"error": "No file selected"}`, in both cases
with no file written and the engine untouched. -/
theorem C6_missing_and_empty_filename_rejected {ρ : Type}
    (engine : String → EngineOptions → Except String ρ) (now : Nat) :
    transcribe engine now ⟨none⟩ =
        ⟨.ok ⟨400, .jsonError "No file provided"⟩, none, false⟩ ∧
      transcribe engine now ⟨some ⟨""⟩⟩ =
        ⟨.ok ⟨400, .jsonError "No file selected"⟩, none, false⟩ := by
  exact ⟨rfl, by simp [transcribe]⟩

/-- Claim C7: on a valid upload on which the engine succeeds, the
response has status 200 and its body is exactly the engine's result,
passed through without modification. -/
theorem C7_success_result_passthrough {ρ : Type}
    (engine : String → EngineOptions → Except String ρ) (now : Nat)
    (pre ext : String) (hdot : '.' ∉ ext.data)
    (hmem : pyLower ext ∈ ALLOWED_EXTENSIONS) (r : ρ)
    (hok : engine (UPLOAD_FOLDER ++ "/" ++ (toString now ++ "." ++ pyLower ext))
        ⟨WHISPER_MODEL_NAME, "ja", true⟩ = .ok r) :
    (transcribe engine now ⟨some ⟨pre ++ "." ++ ext⟩⟩).result =
      .ok ⟨200, .jsonResult r⟩ := by
  rw [transcribe_split engine now pre ext hdot,
    if_pos ⟨mem_allowed_ne_empty hmem, hmem⟩, hok]

theorem C7_success_result_passthrough_witness :
    pyLower "wav" ∈ ALLOWED_EXTENSIONS ∧
      (transcribe (fun _ _ => (.ok "hello" : Except String String)) 42
          ⟨some ⟨"clip" ++ "." ++ "wav"⟩⟩).result = .ok ⟨200, .jsonResult "hello"⟩ :=
  ⟨by decide,
    C7_success_result_passthrough (fun _ _ => .ok "hello") 42 "clip" "wav"
      (by decide) (by decide) "hello" rfl⟩

/-- Claim C8 as stated is false of the code: on a valid upload whose
engine call raises, the handler does not respond with HTTP 500 and a
structured JSON error body — the exception escapes the handler
unconverted (it produces no HTTP response at all; `toOption = none`). -/
theorem C8_counterexample_error_escapes :
    (transcribe (fun _ _ => (.error "boom" : Except String String)) 42
        ⟨some ⟨"clip.wav"⟩⟩).result = .error (.engineError "boom") ∧
      (transcribe (fun _ _ => (.error "boom" : Except String String)) 42
        ⟨some ⟨"clip.wav"⟩⟩).result.toOption = none := by decide

/-- Claim C8 (amended): on a valid upload whose engine call raises, the
error propagates out of the handler unhandled — the handler itself
produces no HTTP response (the surrounding framework's generic error
handling is what turns it into a 500). -/
theorem C8_engine_error_propagates {ρ : Type}
    (engine : String → EngineOptions → Except String ρ) (now : Nat)
    (pre ext : String) (hdot : '.' ∉ ext.data)
    (hmem : pyLower ext ∈ ALLOWED_EXTENSIONS) (m : String)
    (herr : engine (UPLOAD_FOLDER ++ "/" ++ (toString now ++ "." ++ pyLower ext))
        ⟨WHISPER_MODEL_NAME, "ja", true⟩ = .error m) :
    (transcribe engine now ⟨some ⟨pre ++ "." ++ ext⟩⟩).result =
      .error (.engineError m) := by
  rw [transcribe_split engine now pre ext hdot,
    if_pos ⟨mem_allowed_ne_empty hmem, hmem⟩, herr]

theorem C8_engine_error_propagates_witness :
    pyLower "wav" ∈ ALLOWED_EXTENSIONS ∧
      (transcribe (fun _ _ => (.error "boom" : Except String String)) 42
          ⟨some ⟨"clip" ++ "." ++ "wav"⟩⟩).result = .error (.engineError "boom") :=
  ⟨by decide,
    C8_engine_error_propagates (fun _ _ => .error "boom") 42 "clip" "wav"
      (by decide) (by decide) "boom" rfl⟩

/-- Claim C9: the handler's `{"error": "Invalid filename"}` branch is
unreachable — `not file.filename` on a string is exactly
`file.filename == ''`, which the previous guard already returned on, so
no request ever receives that response. -/
theorem C9_invalid_filename_branch_unreachable {ρ : Type}
    (engine : String → EngineOptions → Except String ρ) (now : Nat) (req : Request) :
    (transcribe engine now req).result ≠
      .ok ⟨400, Body.jsonError "Invalid filename"⟩ := by
  cases req with
  | mk file =>
    cases file with
    | none => simp [transcribe]
    | some f =>
      by_cases hf : f.filename = ""
      · simp [transcribe, hf]
      · cases hx : pyIndex1 (rsplitDot1 f.filename) with
        | error e => simp [transcribe, hf, hx]
        | ok extRaw =>
          by_cases hext : pyLower extRaw ≠ "" ∧ pyLower extRaw ∈ ALLOWED_EXTENSIONS
          · cases he : engine (UPLOAD_FOLDER ++ "/" ++ (toString now ++ "." ++ pyLower extRaw))
                ⟨WHISPER_MODEL_NAME, "ja", true⟩ with
            | ok r => simp [transcribe, hf, hx, hext, he]
            | error m => simp [transcribe, hf, hx, hext, he]
          · simp [transcribe, hf, hx, hext]

/-- Claim C10: the extension used for validation and for the stored
filename is the lower-cased dot-free suffix after the LAST `'.'` of the
declared filename: when it lower-cases into the allowed set the file is
stored as `<timestamp>.<that suffix>`, and otherwise (including the
empty suffix of a filename ending in `'.'`) the request is rejected with
`{"error": "Invalid file format"}`. -/
theorem C10_extension_is_after_last_dot {ρ : Type}
    (engine : String → EngineOptions → Except String ρ) (now : Nat)
    (pre ext : String) (hdot : '.' ∉ ext.data) :
    (pyLower ext ∈ ALLOWED_EXTENSIONS →
        (transcribe engine now ⟨some ⟨pre ++ "." ++ ext⟩⟩).saved =
          some (UPLOAD_FOLDER ++ "/" ++ (toString now ++ "." ++ pyLower ext))) ∧
      (pyLower ext ∉ ALLOWED_EXTENSIONS →
        transcribe engine now ⟨some ⟨pre ++ "." ++ ext⟩⟩ =
          ⟨.ok ⟨400, .jsonError "Invalid file format"⟩, none, false⟩) := by
  constructor
  · intro hmem
    rw [transcribe_split engine now pre ext hdot,
      if_pos ⟨mem_allowed_ne_empty hmem, hmem⟩]
    cases engine (UPLOAD_FOLDER ++ "/" ++ (toString now ++ "." ++ pyLower ext))
        ⟨WHISPER_MODEL_NAME, "ja", true⟩ <;> rfl
  · intro hnot
    rw [transcribe_split engine now pre ext hdot]
    simp [hnot]

theorem C10_extension_is_after_last_dot_witness :
    ((transcribe (fun _ _ => (.ok "r" : Except String String)) 7
          ⟨some ⟨"a.txt" ++ "." ++ "wav"⟩⟩).saved =
        some (UPLOAD_FOLDER ++ "/" ++ (toString 7 ++ "." ++ pyLower "wav"))) ∧
      (transcribe (fun _ _ => (.ok "r" : Except String String)) 7
          ⟨some ⟨"a.wav" ++ "." ++ "txt"⟩⟩ =
        ⟨.ok ⟨400, .jsonError "Invalid file format"⟩, none, false⟩) ∧
      (transcribe (fun _ _ => (.ok "r" : Except String String)) 7
          ⟨some ⟨"a" ++ "." ++ ""⟩⟩ =
        ⟨.ok ⟨400, .jsonError "Invalid file format"⟩, none, false⟩) :=
  ⟨(C10_extension_is_after_last_dot (fun _ _ => .ok "r") 7 "a.txt" "wav"
      (by decide)).1 (by decide),
    (C10_extension_is_after_last_dot (fun _ _ => .ok "r") 7 "a.wav" "txt"
      (by decide)).2 (by decide),
    (C10_extension_is_after_last_dot (fun _ _ => .ok "r") 7 "a" ""
      (by decide)).2 (by decide)⟩
